import Mathlib

/-!
# Verification of the items CRUD service's cache-aside protocol

A shallow embedding, in Lean 4, of the core of the repository:

* `app/services/cache.py` — the `CacheService` Redis wrapper (the spec's
  *Cache Client*);
* `app/api/v1/items.py` — the items CRUD handlers (the spec's *Cache-Aside
  Coordinator*, *Record Store* and *Pagination View*).

Modelling conventions:

* The Python in-memory database `_items_db : dict[str, dict]` is embedded as an
  association list `List (String × ItemData)` that preserves insertion order,
  exactly as a Python `dict` does: inserting a fresh key appends, assigning to
  an existing key updates it in place, `del` removes it.
* The Redis server visible through the connection is embedded as the `entries`
  association list of `CacheService`; `connected` models whether
  `self._client` is set (i.e. `connect()` has run), and `up` models transport
  availability: when `up = false` every Redis command raises `RedisError`
  (which the Python code catches), covering connection errors and timeouts.
* Values stored in the cache are either well-formed JSON serializations of an
  item dict (`CacheVal.item`) or bytes on which `json.loads` fails
  (`CacheVal.garbage`); `json.dumps` of an item dict never fails, so the
  `TypeError` branch of `CacheService.set` is subsumed by the transport-error
  branch.  Valid JSON that is not an item dict is never written by this
  application and is not modelled.
* `uuid.uuid4()` and `datetime.utcnow()` are oracles of the handlers: the
  generated id and the current time are explicit parameters (`item_id`,
  `now`); timestamps are abstract instants numbered by `Nat`.
* Raising `HTTPException(404)` is embedded as `Except.error ApiError.notFound`.
* Pydantic's `model_dump(exclude_unset=True)` on `ItemUpdate` is embedded with
  one `Option` per field: `none` means the field was absent from the request
  body.  (A field explicitly set to JSON `null` is not distinguished from an
  absent one; no claim under scrutiny depends on that corner.)
* Metrics hooks (`record_cache_hit`, …) and logging are effect-free for every
  property considered and are dropped.
-/

namespace ItemsApi

/-- The stored shape of an item, i.e. the `item_data` dict of
`app/api/v1/items.py` (same fields as the `ItemResponse` model).  `price`
is only ever stored and copied, never computed with, so its carrier is
taken to be `Int`; `created_at`/`updated_at` are abstract instants. -/
structure ItemData where
  id : String
  name : String
  description : Option String
  price : Int
  quantity : Nat
  tags : List String
  created_at : Nat
  updated_at : Nat
deriving DecidableEq, Repr

/-- Request body of `POST /items` (`ItemCreate` in `items.py`), after
boundary validation. -/
structure ItemCreate where
  name : String
  description : Option String
  price : Int
  quantity : Nat
  tags : List String
deriving DecidableEq, Repr

/-- Request body of `PUT /items/{id}` (`ItemUpdate` in `items.py`): every
field optional, `none` meaning "not present in the request". -/
structure ItemUpdate where
  name : Option String
  description : Option String
  price : Option Int
  quantity : Option Nat
  tags : Option (List String)
deriving DecidableEq, Repr

/-- `CACHE_PREFIX` of `items.py`. -/
def CACHE_PREFIX : String := "item:"

/-- `CACHE_TTL` of `items.py` (seconds). -/
def CACHE_TTL : Nat := 3600

/-- `ITEMS_LIST_KEY` of `items.py`. -/
def ITEMS_LIST_KEY : String := "items:list"

/-! ## Record Store: the `_items_db` dict -/

/-- The `_items_db` mapping, as an insertion-ordered association list. -/
abbrev Db := List (String × ItemData)

/-- `_items_db.get(k)` / `_items_db[k]` lookup. -/
def dbGet (db : Db) (k : String) : Option ItemData :=
  (db.find? (fun p => p.1 == k)).map (·.2)

/-- `k in _items_db`. -/
def dbContains (db : Db) (k : String) : Bool :=
  (dbGet db k).isSome

/-- `_items_db[k] = v`: Python dict assignment — an existing key keeps its
position, a fresh key is appended. -/
def dbInsert (db : Db) (k : String) (v : ItemData) : Db :=
  if dbContains db k then
    db.map (fun p => if p.1 == k then (k, v) else p)
  else
    db ++ [(k, v)]

/-- `del _items_db[k]`. -/
def dbRemove (db : Db) (k : String) : Db :=
  db.filter (fun p => !(p.1 == k))

/-- `list(_items_db.values())`: the values in insertion order. -/
def dbValues (db : Db) : List ItemData :=
  db.map (·.2)

/-! ## Cache Client: `CacheService` of `app/services/cache.py` -/

/-- A value held by the Redis server under some key: either the JSON text of
an item dict, or bytes on which `json.loads` raises `JSONDecodeError`. -/
inductive CacheVal where
  | item (d : ItemData)
  | garbage
deriving DecidableEq, Repr

/-- `json.loads` on a cached value, as used by `CacheService.get`: decoding
garbage raises, which the caller catches and turns into `none`. -/
def decodeVal : CacheVal → Option ItemData
  | .item d => some d
  | .garbage => none

/-- Lookup in the Redis server contents (an association list of key,
value and optional expiry). -/
def findEntry (es : List (String × CacheVal × Option Nat)) (k : String) :
    Option (CacheVal × Option Nat) :=
  (es.find? (fun p => p.1 == k)).map (·.2)

/-- State of the `CacheService` singleton together with the Redis server it
talks to.  `connected` = `self._client is not None`; `up` = the transport
works (when false every command raises `RedisError`); `entries` = the
key/value pairs currently in Redis, each with its optional expiry. -/
structure CacheService where
  connected : Bool
  up : Bool
  entries : List (String × CacheVal × Option Nat)
deriving DecidableEq, Repr

namespace CacheService

/-- Look a key up in the Redis contents. -/
def lookup (c : CacheService) (k : String) : Option (CacheVal × Option Nat) :=
  findEntry c.entries k

/-- Redis `SET`/`SETEX` effect on the server contents: overwrite the key.
Python's `if ttl:` is falsy for `None` and for `0`, so only a non-zero
`ttl` yields `SETEX` (an expiry); otherwise a plain `SET` (no expiry). -/
def entriesSet (es : List (String × CacheVal × Option Nat)) (k : String)
    (v : CacheVal) (ttl : Option Nat) : List (String × CacheVal × Option Nat) :=
  let expiry : Option Nat := match ttl with
    | some t => if t = 0 then none else some t
    | none => none
  (es.filter (fun p => !(p.1 == k))) ++ [(k, v, expiry)]

/-- Redis `DEL` effect on the server contents. -/
def entriesDel (es : List (String × CacheVal × Option Nat)) (k : String) :
    List (String × CacheVal × Option Nat) :=
  es.filter (fun p => !(p.1 == k))

/-- `CacheService.get`: `None` when not connected; `None` on `RedisError` or
`JSONDecodeError` (both caught); otherwise the decoded stored value.  The
Redis contents are unchanged in every case. -/
def get (c : CacheService) (k : String) : Option ItemData × CacheService :=
  if !c.connected then (none, c)
  else if !c.up then (none, c)
  else match c.lookup k with
    | none => (none, c)
    | some (v, _) => (decodeVal v, c)

/-- `CacheService.set`: `false` when not connected; `false` on `RedisError`
(caught); otherwise stores the serialized value with the (truthy) TTL and
returns `true`. -/
def set (c : CacheService) (k : String) (v : ItemData) (ttl : Option Nat) :
    Bool × CacheService :=
  if !c.connected then (false, c)
  else if !c.up then (false, c)
  else (true, { c with entries := entriesSet c.entries k (.item v) ttl })

/-- `CacheService.delete`: `false` when not connected; `false` on
`RedisError` (caught); otherwise deletes the key and returns `true`. -/
def delete (c : CacheService) (k : String) : Bool × CacheService :=
  if !c.connected then (false, c)
  else if !c.up then (false, c)
  else (true, { c with entries := entriesDel c.entries k })

/-- `CacheService.exists`: `false` when not connected or on `RedisError`;
otherwise whether the key is present. -/
def existsKey (c : CacheService) (k : String) : Bool × CacheService :=
  if !c.connected then (false, c)
  else if !c.up then (false, c)
  else ((c.lookup k).isSome, c)

/-- `CacheService.health_check`: `false` when not connected; otherwise
`PING`, with `RedisError` caught as `false`. -/
def health_check (c : CacheService) : Bool × CacheService :=
  if !c.connected then (false, c)
  else if !c.up then (false, c)
  else (true, c)

end CacheService

/-! ## The Cache-Aside Coordinator: handlers of `app/api/v1/items.py` -/

/-- Joint state the handlers act on: the `_items_db` dict and the cache
service singleton (with its Redis server). -/
structure Sys where
  items_db : Db
  cache : CacheService
deriving DecidableEq, Repr

/-- The one error the handlers raise: `HTTPException(404 NOT_FOUND)`. -/
inductive ApiError where
  | notFound
deriving DecidableEq, Repr

/-- `_get_cache_key` of `items.py`: `f"{CACHE_PREFIX}{item_id}"`. -/
def getCacheKey (item_id : String) : String :=
  CACHE_PREFIX ++ item_id

/-- `_get_from_cache` of `items.py` (metrics hooks dropped): a falsy cached
value — absent, failed, or undecodable — is a miss. -/
def getFromCache (item_id : String) (c : CacheService) :
    Option ItemData × CacheService :=
  c.get (getCacheKey item_id)

/-- `_set_in_cache` of `items.py`: cache the item dict under its key with
`ttl=CACHE_TTL`. -/
def setInCache (item_id : String) (item : ItemData) (c : CacheService) :
    CacheService :=
  (c.set (getCacheKey item_id) item (some CACHE_TTL)).2

/-- `_delete_from_cache` of `items.py`: delete the item's key, then the list
key. -/
def deleteFromCache (item_id : String) (c : CacheService) : CacheService :=
  ((c.delete (getCacheKey item_id)).2.delete ITEMS_LIST_KEY).2

/-- `create_item`: build `item_data` with the generated id and
`created_at = updated_at = now`, store it in `_items_db`, cache it, then
invalidate the list key.  `item_id` and `now` stand for the `uuid.uuid4()`
and `datetime.utcnow()` oracles. -/
def create_item (item : ItemCreate) (item_id : String) (now : Nat) (s : Sys) :
    ItemData × Sys :=
  let item_data : ItemData :=
    { id := item_id
      name := item.name
      description := item.description
      price := item.price
      quantity := item.quantity
      tags := item.tags
      created_at := now
      updated_at := now }
  let db' := dbInsert s.items_db item_id item_data
  let c1 := setInCache item_id item_data s.cache
  let c2 := (c1.delete ITEMS_LIST_KEY).2
  (item_data, { items_db := db', cache := c2 })

/-- `get_item`: try the cache; on a hit return it at once; on a miss consult
`_items_db`, 404 when absent, else cache the value for next time and return
it. -/
def get_item (item_id : String) (s : Sys) :
    Except ApiError ItemData × Sys :=
  match getFromCache item_id s.cache with
  | (some cached, c1) => (.ok cached, { s with cache := c1 })
  | (none, c1) =>
    match dbGet s.items_db item_id with
    | none => (.error .notFound, { s with cache := c1 })
    | some item_data =>
      let c2 := setInCache item_id item_data c1
      (.ok item_data, { s with cache := c2 })

/-- The merge loop of `update_item`: assign each field present in
`item.model_dump(exclude_unset=True)`, in field-declaration order, then
refresh `updated_at`. -/
def applyUpdate (d : ItemData) (u : ItemUpdate) (now : Nat) : ItemData :=
  let d := match u.name with | some v => { d with name := v } | none => d
  let d := match u.description with
    | some v => { d with description := some v }
    | none => d
  let d := match u.price with | some v => { d with price := v } | none => d
  let d := match u.quantity with
    | some v => { d with quantity := v }
    | none => d
  let d := match u.tags with | some v => { d with tags := v } | none => d
  { d with updated_at := now }

/-- `update_item`: 404 when the id is absent from `_items_db`; otherwise
merge the provided fields, refresh `updated_at`, write the merged dict back
to `_items_db`, overwrite the cache entry, then invalidate the list key. -/
def update_item (item_id : String) (item : ItemUpdate) (now : Nat) (s : Sys) :
    Except ApiError ItemData × Sys :=
  match dbGet s.items_db item_id with
  | none => (.error .notFound, s)
  | some item_data0 =>
    let item_data := applyUpdate item_data0 item now
    let db' := dbInsert s.items_db item_id item_data
    let c1 := setInCache item_id item_data s.cache
    let c2 := (c1.delete ITEMS_LIST_KEY).2
    (.ok item_data, { items_db := db', cache := c2 })

/-- `delete_item`: 404 when the id is absent from `_items_db`; otherwise
remove it from the dict, then delete its cache entry and the list key. -/
def delete_item (item_id : String) (s : Sys) : Except ApiError Unit × Sys :=
  if dbContains s.items_db item_id then
    let db' := dbRemove s.items_db item_id
    let c' := deleteFromCache item_id s.cache
    (.ok (), { items_db := db', cache := c' })
  else
    (.error .notFound, s)

/-- Response of `GET /items` (`ItemListResponse` in `items.py`). -/
structure ItemListResponse where
  items : List ItemData
  total : Nat
  page : Nat
  page_size : Nat
  total_pages : Nat
deriving DecidableEq, Repr

/-- `list_items`: read all of `_items_db` in insertion order, compute the
pagination metadata and the slice `all_items[start:end]`.  The boundary
layer guarantees `page ≥ 1` and `1 ≤ page_size ≤ 100`.  No cache call is
made. -/
def list_items (page page_size : Nat) (s : Sys) : ItemListResponse :=
  let all_items := dbValues s.items_db
  let total := all_items.length
  let total_pages := if total > 0 then (total + page_size - 1) / page_size else 1
  let start := (page - 1) * page_size
  let page_items := (all_items.drop start).take page_size
  { items := page_items
    total := total
    page := page
    page_size := page_size
    total_pages := total_pages }

/-- Every Cache Client call fails: the client was never connected, or the
transport is down (connection error / timeout / unreachable store). -/
def cacheFailing (c : CacheService) : Prop :=
  c.connected = false ∨ c.up = false

instance (c : CacheService) : Decidable (cacheFailing c) := by
  unfold cacheFailing
  infer_instance

/-- The Cache Client is reachable: connected and transport up. -/
def cacheAvailable (c : CacheService) : Prop :=
  c.connected = true ∧ c.up = true

instance (c : CacheService) : Decidable (cacheAvailable c) := by
  unfold cacheAvailable
  infer_instance

/-! ## Store-only reference semantics

The following definitions are NOT translated from the handler code: they
follow the specification's words for the Record Store (§4.2) and the results
the Coordinator must produce from it alone (§4.3, §8 property 6).  They never
mention the cache; the refinement theorems below compare the handlers,
whose every cache call has been forced to fail, against them. -/

/-- Spec §4.2/§4.3 Create: fresh id, `created_at = updated_at = now`,
insert into the Record Store. -/
def specCreate (db : Db) (i : ItemCreate) (item_id : String) (now : Nat) :
    ItemData × Db :=
  let e : ItemData :=
    { id := item_id
      name := i.name
      description := i.description
      price := i.price
      quantity := i.quantity
      tags := i.tags
      created_at := now
      updated_at := now }
  (e, dbInsert db item_id e)

/-- Spec §4.2 Read from the Record Store: the stored entity, or NotFound. -/
def specRead (db : Db) (item_id : String) : Except ApiError ItemData :=
  match dbGet db item_id with
  | some d => .ok d
  | none => .error .notFound

/-- Spec §4.2 Update: NotFound when absent; otherwise merge the present
fields, refresh `updated_at`, write back. -/
def specUpdate (db : Db) (item_id : String) (u : ItemUpdate) (now : Nat) :
    Except ApiError ItemData × Db :=
  match dbGet db item_id with
  | none => (.error .notFound, db)
  | some d =>
    let d' := applyUpdate d u now
    (.ok d', dbInsert db item_id d')

/-- Spec §4.2 Delete: NotFound when absent; otherwise remove. -/
def specDelete (db : Db) (item_id : String) : Except ApiError Unit × Db :=
  if dbContains db item_id then (.ok (), dbRemove db item_id)
  else (.error .notFound, db)

/-- Spec §4.3 List: full collection in insertion order,
`total_pages = ceil(total / page_size)` with a minimum of one page, and the
slice `[(page-1)*page_size, page*page_size)`. -/
def specList (db : Db) (page page_size : Nat) : ItemListResponse :=
  let all := dbValues db
  let total := all.length
  { items := (all.drop ((page - 1) * page_size)).take page_size
    total := total
    page := page
    page_size := page_size
    total_pages := if total > 0 then total ⌈/⌉ page_size else 1 }

/-! ## Request traces

To speak about every reachable state we close the handlers under arbitrary
interleavings of requests and environment events: the Redis transport may
come and go (`transport`), the process may connect or disconnect the client
(`connect`/`disconnect` — `connect()` assigns `self._client` before its
verification `PING`, so even a failed startup connect leaves the client
set), and Redis may expire or evict any entry on its own (`expire`). -/

inductive Op where
  | create (fields : ItemCreate) (item_id : String) (now : Nat)
  | read (item_id : String)
  | update (item_id : String) (fields : ItemUpdate) (now : Nat)
  | del (item_id : String)
  | list (page page_size : Nat)
  | connect
  | disconnect
  | transport (b : Bool)
  | expire (k : String)
deriving DecidableEq, Repr

/-- Effect of one request or environment event on the joint state
(`list_items` reads but never writes). -/
def step (s : Sys) : Op → Sys
  | .create f item_id now => (create_item f item_id now s).2
  | .read item_id => (get_item item_id s).2
  | .update item_id f now => (update_item item_id f now s).2
  | .del item_id => (delete_item item_id s).2
  | .list _ _ => s
  | .connect => { s with cache := { s.cache with connected := true } }
  | .disconnect => { s with cache := { s.cache with connected := false } }
  | .transport b => { s with cache := { s.cache with up := b } }
  | .expire k =>
    { s with cache :=
        { s.cache with entries := CacheService.entriesDel s.cache.entries k } }

/-- Run a trace of operations from a state. -/
def runOps (s : Sys) : List Op → Sys
  | [] => s
  | op :: ops => runOps (step s op) ops

/-- Fresh process: empty `_items_db`, empty Redis, given connection and
transport status. -/
def initSys (connected up : Bool) : Sys :=
  { items_db := []
    cache := { connected := connected, up := up, entries := [] } }

/-! ## Concrete objects used by the witness theorems -/

def wItem (i : String) : ItemData :=
  { id := i, name := "A", description := none, price := 1, quantity := 2,
    tags := [], created_at := 0, updated_at := 0 }

def wItemStale : ItemData :=
  { id := "a", name := "Old", description := none, price := 99, quantity := 7,
    tags := [], created_at := 0, updated_at := 0 }

def wCreateA : ItemCreate :=
  { name := "A", description := none, price := 1, quantity := 2, tags := [] }

def wUpdatePrice : ItemUpdate :=
  { name := none, description := none, price := some 5, quantity := none,
    tags := none }

def wCacheUp : CacheService := { connected := true, up := true, entries := [] }

def wCacheHit : CacheService :=
  { connected := true, up := true,
    entries := [("item:a", .item wItemStale, some 3600)] }

def wCacheGarbage : CacheService :=
  { connected := true, up := true, entries := [("item:a", .garbage, none)] }

def wCacheDown : CacheService :=
  { connected := true, up := false, entries := [] }

def wCacheNoConn : CacheService :=
  { connected := false, up := true, entries := [] }

def wDb1 : Db := [("a", wItem "a")]

def wDb5 : Db :=
  [("1", wItem "1"), ("2", wItem "2"), ("3", wItem "3"), ("4", wItem "4"),
    ("5", wItem "5")]

/-- Key/value coherence of the Record Store: every stored entity carries the
id it is stored under (true of every reachable store, since `create_item`
stores the entity under its own fresh id and updates never touch `id`). -/
def DbIds (db : Db) : Prop :=
  ∀ k x, dbGet db k = some x → x.id = k

/-! ## Basic lemmas about the Record Store and the Redis contents -/

deriving instance DecidableEq for Except

/-- Entity cache keys are injective in the id. -/
theorem getCacheKey_inj {a b : String} (h : getCacheKey a = getCacheKey b) :
    a = b := by
  have hd := congrArg String.data h
  simp [getCacheKey, CACHE_PREFIX, String.data_append] at hd
  exact String.ext hd

/-- No entity cache key ever coincides with the list key: `"item:" ++ id`
starts with `"item:"` while `ITEMS_LIST_KEY` starts with `"items"`. -/
theorem getCacheKey_ne_listKey (id : String) :
    getCacheKey id ≠ ITEMS_LIST_KEY := by
  intro h
  have hd := congrArg String.data h
  simp [getCacheKey, CACHE_PREFIX, ITEMS_LIST_KEY, String.data_append,
    String.data] at hd

theorem dbGet_nil (k : String) : dbGet [] k = none := rfl

theorem dbGet_cons (p : String × ItemData) (db : Db) (k : String) :
    dbGet (p :: db) k = if p.1 == k then some p.2 else dbGet db k := by
  by_cases h : p.1 == k
  · simp [dbGet, List.find?_cons_of_pos, h]
  · simp only [Bool.not_eq_true] at h
    simp [dbGet, List.find?_cons_of_neg, h]

theorem dbGet_insert_self (db : Db) (k : String) (v : ItemData) :
    dbGet (dbInsert db k v) k = some v := by
  unfold dbInsert
  split
  next hc =>
    induction db with
    | nil => simp [dbContains, dbGet] at hc
    | cons p ps ih =>
      by_cases hpk : p.1 = k
      · simp [List.map_cons, hpk, dbGet_cons]
      · have hc' : dbContains ps k = true := by
          simpa [dbContains, dbGet_cons, hpk] using hc
        simpa [List.map_cons, hpk, dbGet_cons] using ih hc'
  next hc =>
    induction db with
    | nil => simp [dbGet_cons]
    | cons p ps ih =>
      have hpk : ¬ p.1 = k := by
        intro he
        simp [dbContains, dbGet_cons, he] at hc
      have hc' : ¬ dbContains ps k = true := by
        simpa [dbContains, dbGet_cons, hpk] using hc
      simp [List.cons_append, dbGet_cons, hpk]
      simpa using ih hc'

theorem dbGet_insert_ne (db : Db) (k k' : String) (v : ItemData)
    (h : k' ≠ k) : dbGet (dbInsert db k v) k' = dbGet db k' := by
  unfold dbInsert
  split
  next hc =>
    clear hc
    induction db with
    | nil => rfl
    | cons p ps ih =>
      by_cases hpk : p.1 = k
      · have hpk' : ¬ p.1 = k' := by
          intro he
          exact h (by rw [← he, hpk])
        simp [List.map_cons, hpk, dbGet_cons, Ne.symm h, hpk']
        simpa using ih
      · by_cases hpk' : p.1 = k'
        · simp [List.map_cons, hpk, dbGet_cons, hpk', h, Ne.symm h]
        · simp [List.map_cons, hpk, dbGet_cons, hpk']
          simpa using ih
  next hc =>
    clear hc
    induction db with
    | nil => simp [dbGet_cons, dbGet_nil, Ne.symm h]
    | cons p ps ih =>
      by_cases hpk' : p.1 = k'
      · simp [List.cons_append, dbGet_cons, hpk']
      · simp [List.cons_append, dbGet_cons, hpk']
        simpa using ih

theorem dbGet_remove_self (db : Db) (k : String) :
    dbGet (dbRemove db k) k = none := by
  induction db with
  | nil => rfl
  | cons p ps ih =>
    by_cases hpk : p.1 = k
    · simpa [dbRemove, List.filter_cons, hpk] using ih
    · simpa [dbRemove, List.filter_cons, hpk, dbGet_cons] using ih

theorem dbGet_remove_ne (db : Db) (k k' : String) (h : k' ≠ k) :
    dbGet (dbRemove db k) k' = dbGet db k' := by
  induction db with
  | nil => rfl
  | cons p ps ih =>
    by_cases hpk : p.1 = k
    · have hpk' : ¬ p.1 = k' := by
        intro he
        exact h (by rw [← he, hpk])
      simp [dbRemove, List.filter_cons, hpk, dbGet_cons, hpk', h, Ne.symm h]
      simpa [dbRemove] using ih
    · by_cases hpk' : p.1 = k'
      · simp [dbRemove, List.filter_cons, hpk, dbGet_cons, hpk', h, Ne.symm h]
      · simp [dbRemove, List.filter_cons, hpk, dbGet_cons, hpk']
        simpa [dbRemove] using ih

theorem findEntry_cons (p : String × CacheVal × Option Nat)
    (es : List (String × CacheVal × Option Nat)) (k : String) :
    findEntry (p :: es) k = if p.1 == k then some p.2 else findEntry es k := by
  by_cases h : p.1 == k
  · simp [findEntry, List.find?_cons_of_pos, h]
  · simp only [Bool.not_eq_true] at h
    simp [findEntry, List.find?_cons_of_neg, h]

/-- Erasing a key really erases it. -/
theorem findEntry_del_self (es : List (String × CacheVal × Option Nat))
    (k : String) : findEntry (CacheService.entriesDel es k) k = none := by
  induction es with
  | nil => rfl
  | cons p ps ih =>
    by_cases hpk : p.1 = k
    · simpa [CacheService.entriesDel, List.filter_cons, hpk] using ih
    · simpa [CacheService.entriesDel, List.filter_cons, hpk, findEntry_cons]
        using ih

theorem findEntry_del_ne (es : List (String × CacheVal × Option Nat))
    (k k' : String) (h : k' ≠ k) :
    findEntry (CacheService.entriesDel es k) k' = findEntry es k' := by
  induction es with
  | nil => rfl
  | cons p ps ih =>
    by_cases hpk : p.1 = k
    · have hpk' : ¬ p.1 = k' := by
        intro he
        exact h (by rw [← he, hpk])
      simp [CacheService.entriesDel, List.filter_cons, hpk, findEntry_cons,
        hpk', h, Ne.symm h]
      simpa [CacheService.entriesDel] using ih
    · by_cases hpk' : p.1 = k'
      · simp [CacheService.entriesDel, List.filter_cons, hpk, findEntry_cons,
          hpk', h, Ne.symm h]
      · simp [CacheService.entriesDel, List.filter_cons, hpk, findEntry_cons,
          hpk']
        simpa [CacheService.entriesDel] using ih

/-- A `SET`/`SETEX` stores the value under the key, with the expiry
determined by the (Python-truthy) TTL. -/
theorem findEntry_set_self (es : List (String × CacheVal × Option Nat))
    (k : String) (v : CacheVal) (ttl : Option Nat) :
    findEntry (CacheService.entriesSet es k v ttl) k =
      some (v, match ttl with
        | some t => if t = 0 then none else some t
        | none => none) := by
  induction es with
  | nil => simp [CacheService.entriesSet, findEntry_cons]
  | cons p ps ih =>
    simp only [CacheService.entriesSet] at ih ⊢
    by_cases hpk : p.1 = k
    · rw [List.filter_cons, if_neg (by simp [hpk])]
      exact ih
    · rw [List.filter_cons, if_pos (by simp [hpk]), List.cons_append,
        findEntry_cons, if_neg (by simpa using hpk)]
      exact ih

theorem findEntry_set_ne (es : List (String × CacheVal × Option Nat))
    (k k' : String) (v : CacheVal) (ttl : Option Nat) (h : k' ≠ k) :
    findEntry (CacheService.entriesSet es k v ttl) k' = findEntry es k' := by
  induction es with
  | nil => simp [CacheService.entriesSet, findEntry_cons, Ne.symm h]
  | cons p ps ih =>
    simp only [CacheService.entriesSet] at ih ⊢
    by_cases hpk : p.1 = k
    · have hpk' : ¬ p.1 = k' := by
        intro he
        exact h (by rw [← he, hpk])
      rw [List.filter_cons, if_neg (by simp [hpk]), ih, findEntry_cons,
        if_neg (by simpa using hpk')]
    · by_cases hpk' : p.1 = k'
      · rw [List.filter_cons, if_pos (by simp [hpk]), List.cons_append,
          findEntry_cons, if_pos (by simpa using hpk'), findEntry_cons,
          if_pos (by simpa using hpk')]
      · rw [List.filter_cons, if_pos (by simp [hpk]), List.cons_append,
          findEntry_cons, if_neg (by simpa using hpk'), ih, findEntry_cons,
          if_neg (by simpa using hpk')]

/-! ## Cache Client behaviour under failure and under availability -/

theorem get_of_failing {c : CacheService} (h : cacheFailing c) (k : String) :
    c.get k = (none, c) := by
  rcases h with h | h <;> simp [CacheService.get, h]

theorem set_of_failing {c : CacheService} (h : cacheFailing c) (k : String)
    (v : ItemData) (ttl : Option Nat) : c.set k v ttl = (false, c) := by
  rcases h with h | h <;> simp [CacheService.set, h]

theorem delete_of_failing {c : CacheService} (h : cacheFailing c)
    (k : String) : c.delete k = (false, c) := by
  rcases h with h | h <;> simp [CacheService.delete, h]

theorem existsKey_of_failing {c : CacheService} (h : cacheFailing c)
    (k : String) : c.existsKey k = (false, c) := by
  rcases h with h | h <;> simp [CacheService.existsKey, h]

theorem health_check_of_failing {c : CacheService} (h : cacheFailing c) :
    c.health_check = (false, c) := by
  rcases h with h | h <;> simp [CacheService.health_check, h]

theorem get_of_available {c : CacheService} (h : cacheAvailable c)
    (k : String) :
    c.get k = (match c.lookup k with
      | none => none
      | some (v, _) => decodeVal v, c) := by
  simp only [CacheService.get, h.1, h.2, Bool.not_true, Bool.false_eq_true,
    if_false]
  rcases c.lookup k with _ | ⟨v, e⟩ <;> rfl

theorem set_of_available {c : CacheService} (h : cacheAvailable c)
    (k : String) (v : ItemData) (ttl : Option Nat) :
    c.set k v ttl =
      (true, { c with
        entries := CacheService.entriesSet c.entries k (.item v) ttl }) := by
  simp [CacheService.set, h.1, h.2]

theorem delete_of_available {c : CacheService} (h : cacheAvailable c)
    (k : String) :
    c.delete k =
      (true, { c with entries := CacheService.entriesDel c.entries k }) := by
  simp [CacheService.delete, h.1, h.2]

/-- `CacheService.get` never mutates anything. -/
theorem get_snd (c : CacheService) (k : String) : (c.get k).2 = c := by
  unfold CacheService.get
  split
  · rfl
  · split
    · rfl
    · rcases hl : c.lookup k with _ | ⟨v, e⟩ <;> simp [hl]

/-! ### Refinement of the handlers by the store-only semantics -/

theorem create_item_fst (i : ItemCreate) (item_id : String) (now : Nat)
    (s : Sys) : (create_item i item_id now s).1 =
      (specCreate s.items_db i item_id now).1 := rfl

theorem create_item_db (i : ItemCreate) (item_id : String) (now : Nat)
    (s : Sys) : (create_item i item_id now s).2.items_db =
      (specCreate s.items_db i item_id now).2 := rfl

theorem create_item_cache_of_failing {s : Sys} (h : cacheFailing s.cache)
    (i : ItemCreate) (item_id : String) (now : Nat) :
    (create_item i item_id now s).2.cache = s.cache := by
  simp [create_item, setInCache, set_of_failing h, delete_of_failing h]

theorem get_item_of_failing {s : Sys} (h : cacheFailing s.cache)
    (item_id : String) :
    get_item item_id s = (specRead s.items_db item_id, s) := by
  unfold get_item getFromCache specRead
  rw [get_of_failing h]
  rcases hd : dbGet s.items_db item_id with _ | d
  · simp [hd]
  · simp [hd, setInCache, set_of_failing h]

theorem update_item_fst (item_id : String) (u : ItemUpdate) (now : Nat)
    (s : Sys) : (update_item item_id u now s).1 =
      (specUpdate s.items_db item_id u now).1 := by
  unfold update_item specUpdate
  rcases hd : dbGet s.items_db item_id with _ | d <;> simp [hd]

theorem update_item_db (item_id : String) (u : ItemUpdate) (now : Nat)
    (s : Sys) : (update_item item_id u now s).2.items_db =
      (specUpdate s.items_db item_id u now).2 := by
  unfold update_item specUpdate
  rcases hd : dbGet s.items_db item_id with _ | d <;> simp [hd]

theorem update_item_cache_of_failing {s : Sys} (h : cacheFailing s.cache)
    (item_id : String) (u : ItemUpdate) (now : Nat) :
    (update_item item_id u now s).2.cache = s.cache := by
  unfold update_item
  rcases hd : dbGet s.items_db item_id with _ | d <;>
    simp [hd, setInCache, set_of_failing h, delete_of_failing h]

theorem delete_item_fst (item_id : String) (s : Sys) :
    (delete_item item_id s).1 = (specDelete s.items_db item_id).1 := by
  unfold delete_item specDelete
  by_cases hc : dbContains s.items_db item_id <;> simp [hc]

theorem delete_item_db (item_id : String) (s : Sys) :
    (delete_item item_id s).2.items_db =
      (specDelete s.items_db item_id).2 := by
  unfold delete_item specDelete
  by_cases hc : dbContains s.items_db item_id <;> simp [hc]

theorem delete_item_cache_of_failing {s : Sys} (h : cacheFailing s.cache)
    (item_id : String) : (delete_item item_id s).2.cache = s.cache := by
  unfold delete_item
  by_cases hc : dbContains s.items_db item_id <;>
    simp [hc, deleteFromCache, delete_of_failing h]

theorem list_items_eq_spec (page page_size : Nat) (s : Sys) :
    list_items page page_size s = specList s.items_db page page_size := rfl

theorem cacheAvailable_entries (c : CacheService)
    (es : List (String × CacheVal × Option Nat)) (h : cacheAvailable c) :
    cacheAvailable { c with entries := es } := ⟨h.1, h.2⟩

theorem failing_of_not_available {c : CacheService}
    (h : ¬ cacheAvailable c) : cacheFailing c := by
  unfold cacheAvailable at h
  unfold cacheFailing
  rcases hc : c.connected with _ | _
  · exact Or.inl rfl
  · rcases hu : c.up with _ | _
    · exact Or.inr rfl
    · exact absurd ⟨hc, hu⟩ h

theorem Sys_eq_mk (s : Sys) (db : Db) (c : CacheService)
    (h1 : s.items_db = db) (h2 : s.cache = c) : s = ⟨db, c⟩ := by
  cases s
  simp_all

/-- `(a + b - 1) / b` really is the ceiling of `a / b`: it is the least
number of `b`-sized pages covering `a` elements (for `a, b ≥ 1`). -/
theorem ceil_div_bounds (a b : Nat) (h1 : 1 ≤ a) (h2 : 1 ≤ b) :
    a ≤ ((a + b - 1) / b) * b ∧ (((a + b - 1) / b) - 1) * b < a := by
  have h3 := Nat.div_add_mod (a + b - 1) b
  have h4 : (a + b - 1) % b < b := Nat.mod_lt _ h2
  set q := (a + b - 1) / b with hq
  set r := (a + b - 1) % b with hr
  have hx : (q - 1) * b = q * b - 1 * b := Nat.sub_mul q 1 b
  constructor
  · rw [Nat.mul_comm]
    generalize hX : b * q = X at h3 ⊢
    omega
  · rw [hx, one_mul, Nat.mul_comm q b]
    generalize hX : b * q = X at h3 ⊢
    omega

/-- With a reachable cache, `create_item` leaves the Redis contents with the
new entity stored and the list key erased (store write, then cache write,
then list invalidation). -/
theorem create_item_cache_of_available {s : Sys} (hav : cacheAvailable s.cache)
    (f : ItemCreate) (item_id : String) (now : Nat) :
    (create_item f item_id now s).2.cache =
      ⟨s.cache.connected, s.cache.up,
        CacheService.entriesDel
          (CacheService.entriesSet s.cache.entries (getCacheKey item_id)
            (CacheVal.item (create_item f item_id now s).1) (some CACHE_TTL))
          ITEMS_LIST_KEY⟩ := by
  simp [create_item, setInCache, set_of_available hav,
    delete_of_available (cacheAvailable_entries _ _ hav)]

theorem create_item_lookup_self {s : Sys} (hav : cacheAvailable s.cache)
    (f : ItemCreate) (item_id : String) (now : Nat) :
    (create_item f item_id now s).2.cache.lookup (getCacheKey item_id) =
      some (.item (create_item f item_id now s).1, some CACHE_TTL) := by
  rw [create_item_cache_of_available hav]
  simp [CacheService.lookup,
    findEntry_del_ne _ ITEMS_LIST_KEY (getCacheKey item_id)
      (getCacheKey_ne_listKey item_id),
    findEntry_set_self, CACHE_TTL]

theorem create_item_lookup_list {s : Sys} (hav : cacheAvailable s.cache)
    (f : ItemCreate) (item_id : String) (now : Nat) :
    (create_item f item_id now s).2.cache.lookup ITEMS_LIST_KEY = none := by
  rw [create_item_cache_of_available hav]
  simp [CacheService.lookup, findEntry_del_self]

/-- `create_item` never touches the connection or transport flags. -/
theorem create_item_cache_flags (s : Sys) (f : ItemCreate) (item_id : String)
    (now : Nat) :
    (create_item f item_id now s).2.cache.connected = s.cache.connected ∧
    (create_item f item_id now s).2.cache.up = s.cache.up := by
  by_cases hav : cacheAvailable s.cache
  · rw [create_item_cache_of_available hav]
    exact ⟨rfl, rfl⟩
  · rw [create_item_cache_of_failing (failing_of_not_available hav)]
    exact ⟨rfl, rfl⟩

/-- When every Cache Client call fails, each handler computes exactly the
store-only result and leaves the cache untouched. -/
theorem failing_refinement {c : CacheService} (h : cacheFailing c) :
    (∀ (db : Db) (i : ItemCreate) (item_id : String) (now : Nat),
      (create_item i item_id now ⟨db, c⟩).1 = (specCreate db i item_id now).1 ∧
      (create_item i item_id now ⟨db, c⟩).2 =
        ⟨(specCreate db i item_id now).2, c⟩) ∧
    (∀ (db : Db) (item_id : String),
      get_item item_id ⟨db, c⟩ = (specRead db item_id, ⟨db, c⟩)) ∧
    (∀ (db : Db) (item_id : String) (u : ItemUpdate) (now : Nat),
      (update_item item_id u now ⟨db, c⟩).1 =
        (specUpdate db item_id u now).1 ∧
      (update_item item_id u now ⟨db, c⟩).2 =
        ⟨(specUpdate db item_id u now).2, c⟩) ∧
    (∀ (db : Db) (item_id : String),
      (delete_item item_id ⟨db, c⟩).1 = (specDelete db item_id).1 ∧
      (delete_item item_id ⟨db, c⟩).2 = ⟨(specDelete db item_id).2, c⟩) ∧
    (∀ (db : Db) (page page_size : Nat),
      list_items page page_size ⟨db, c⟩ = specList db page page_size) := by
  refine ⟨?_, ?_, ?_, ?_, ?_⟩
  · intro db i item_id now
    exact ⟨create_item_fst i item_id now ⟨db, c⟩,
      Sys_eq_mk _ _ _ (create_item_db i item_id now ⟨db, c⟩)
        (create_item_cache_of_failing h i item_id now)⟩
  · intro db item_id
    exact get_item_of_failing h item_id
  · intro db item_id u now
    exact ⟨update_item_fst item_id u now ⟨db, c⟩,
      Sys_eq_mk _ _ _ (update_item_db item_id u now ⟨db, c⟩)
        (update_item_cache_of_failing h item_id u now)⟩
  · intro db item_id
    exact ⟨delete_item_fst item_id ⟨db, c⟩,
      Sys_eq_mk _ _ _ (delete_item_db item_id ⟨db, c⟩)
        (delete_item_cache_of_failing h item_id)⟩
  · intro db page page_size
    exact list_items_eq_spec page page_size ⟨db, c⟩

/-- Field-wise description of the merge loop of `update_item`. -/
theorem applyUpdate_eq (d : ItemData) (u : ItemUpdate) (now : Nat) :
    applyUpdate d u now =
      { id := d.id
        name := u.name.getD d.name
        description := match u.description with
          | some v => some v
          | none => d.description
        price := u.price.getD d.price
        quantity := u.quantity.getD d.quantity
        tags := u.tags.getD d.tags
        created_at := d.created_at
        updated_at := now } := by
  rcases u with ⟨un, ud, upr, uq, ut⟩
  cases un <;> cases ud <;> cases upr <;> cases uq <;> cases ut <;> rfl

theorem update_item_cache_of_available {s : Sys} (hav : cacheAvailable s.cache)
    {item_id : String} {d0 : ItemData}
    (hd : dbGet s.items_db item_id = some d0) (u : ItemUpdate) (now : Nat) :
    (update_item item_id u now s).2.cache =
      ⟨s.cache.connected, s.cache.up,
        CacheService.entriesDel
          (CacheService.entriesSet s.cache.entries (getCacheKey item_id)
            (CacheVal.item (applyUpdate d0 u now)) (some CACHE_TTL))
          ITEMS_LIST_KEY⟩ := by
  simp [update_item, hd, setInCache, set_of_available hav,
    delete_of_available (cacheAvailable_entries _ _ hav)]

theorem update_item_not_found {s : Sys} {item_id : String}
    (hd : dbGet s.items_db item_id = none) (u : ItemUpdate) (now : Nat) :
    update_item item_id u now s = (.error .notFound, s) := by
  simp [update_item, hd]

theorem delete_item_cache_of_available {s : Sys} (hav : cacheAvailable s.cache)
    {item_id : String} (hc : dbContains s.items_db item_id = true) :
    (delete_item item_id s).2.cache =
      ⟨s.cache.connected, s.cache.up,
        CacheService.entriesDel
          (CacheService.entriesDel s.cache.entries (getCacheKey item_id))
          ITEMS_LIST_KEY⟩ := by
  simp [delete_item, hc, deleteFromCache, delete_of_available hav,
    delete_of_available (cacheAvailable_entries _ _ hav)]

theorem delete_item_not_found {s : Sys} {item_id : String}
    (hc : ¬ dbContains s.items_db item_id = true) :
    delete_item item_id s = (.error .notFound, s) := by
  simp [delete_item, hc]

/-- `get_item` never writes to the Record Store. -/
theorem get_item_db (item_id : String) (s : Sys) :
    (get_item item_id s).2.items_db = s.items_db := by
  have hsnd := get_snd s.cache (getCacheKey item_id)
  rcases hg : s.cache.get (getCacheKey item_id) with ⟨r, c1⟩
  rcases r with _ | v
  · rcases hd : dbGet s.items_db item_id with _ | d0 <;>
      simp [get_item, getFromCache, hg, hd]
  · simp [get_item, getFromCache, hg]

/-- `get_item` either leaves the cache alone (hit, 404, or failure) or
performs exactly the read-through fill of the value found in the store. -/
theorem get_item_cache_cases (item_id : String) (s : Sys) :
    (get_item item_id s).2.cache = s.cache ∨
    (∃ d0, dbGet s.items_db item_id = some d0 ∧
      (get_item item_id s).2.cache =
        (s.cache.set (getCacheKey item_id) d0 (some CACHE_TTL)).2) := by
  have hsnd := get_snd s.cache (getCacheKey item_id)
  rcases hg : s.cache.get (getCacheKey item_id) with ⟨r, c1⟩
  have hc1 : c1 = s.cache := by
    rw [hg] at hsnd
    exact hsnd
  subst hc1
  rcases r with _ | v
  · rcases hd : dbGet s.items_db item_id with _ | d0
    · left
      simp [get_item, getFromCache, hg, hd]
    · right
      exact ⟨d0, rfl, by simp [get_item, getFromCache, hg, hd, setInCache]⟩
  · left
    simp [get_item, getFromCache, hg]

theorem dbIds_nil : DbIds [] := by
  intro k x hx
  simp [dbGet] at hx

theorem dbIds_insert {db : Db} (h : DbIds db) {k : String} {v : ItemData}
    (hv : v.id = k) : DbIds (dbInsert db k v) := by
  intro k' x hx
  by_cases hk : k' = k
  · subst hk
    rw [dbGet_insert_self] at hx
    cases hx
    exact hv
  · rw [dbGet_insert_ne _ _ _ _ hk] at hx
    exact h k' x hx

theorem dbIds_remove {db : Db} (h : DbIds db) (k : String) :
    DbIds (dbRemove db k) := by
  intro k' x hx
  by_cases hk : k' = k
  · subst hk
    rw [dbGet_remove_self] at hx
    cases hx
  · rw [dbGet_remove_ne _ _ _ hk] at hx
    exact h k' x hx

/-- Every operation preserves key/value coherence of the Record Store. -/
theorem dbIds_step {s : Sys} (h : DbIds s.items_db) (op : Op) :
    DbIds (step s op).items_db := by
  cases op with
  | create f item_id now =>
    show DbIds (create_item f item_id now s).2.items_db
    have hdb : (create_item f item_id now s).2.items_db =
        dbInsert s.items_db item_id (create_item f item_id now s).1 := rfl
    rw [hdb]
    exact dbIds_insert h rfl
  | read item_id =>
    show DbIds (get_item item_id s).2.items_db
    rw [get_item_db]
    exact h
  | update item_id u now =>
    show DbIds (update_item item_id u now s).2.items_db
    rcases hd : dbGet s.items_db item_id with _ | d0
    · rw [update_item_not_found hd]
      exact h
    · have hdb : (update_item item_id u now s).2.items_db =
          dbInsert s.items_db item_id (applyUpdate d0 u now) := by
        simp [update_item, hd]
      rw [hdb]
      refine dbIds_insert h ?_
      rw [applyUpdate_eq]
      exact h item_id d0 hd
  | del item_id =>
    show DbIds (delete_item item_id s).2.items_db
    by_cases hc : dbContains s.items_db item_id = true
    · have hdb : (delete_item item_id s).2.items_db =
          dbRemove s.items_db item_id := by
        simp [delete_item, hc]
      rw [hdb]
      exact dbIds_remove h _
    · rw [delete_item_not_found hc]
      exact h
  | list page page_size => exact h
  | connect => exact h
  | disconnect => exact h
  | transport b => exact h
  | expire k => exact h

/-- One-step cache coherence: any entity entry present under `item:<id>`
after an operation either was already there with the same value beforehand,
or carries the id it is keyed under and is, right now, the Record Store's
value for that id — because every cache write happens after the
corresponding store write. -/
theorem step_cache_entry {s : Sys} (hids : DbIds s.items_db) (op : Op)
    {id : String} {d : ItemData} {e : Option Nat}
    (h : (step s op).cache.lookup (getCacheKey id) = some (.item d, e)) :
    (∃ e', s.cache.lookup (getCacheKey id) = some (.item d, e')) ∨
    (d.id = id ∧ dbGet (step s op).items_db id = some d) := by
  cases op with
  | create f nid now =>
    by_cases hav : cacheAvailable s.cache
    · rw [show step s (.create f nid now) = (create_item f nid now s).2
        from rfl, create_item_cache_of_available hav] at h
      simp only [CacheService.lookup] at h
      rw [findEntry_del_ne _ _ _ (getCacheKey_ne_listKey id)] at h
      by_cases hid : id = nid
      · subst hid
        rw [findEntry_set_self] at h
        simp [CACHE_TTL] at h
        right
        rw [← h.1]
        exact ⟨rfl, dbGet_insert_self s.items_db id _⟩
      · rw [findEntry_set_ne _ _ _ _ _
          (fun hh => hid (getCacheKey_inj hh))] at h
        exact Or.inl ⟨e, h⟩
    · rw [show step s (.create f nid now) = (create_item f nid now s).2
        from rfl, create_item_cache_of_failing
          (failing_of_not_available hav) f nid now] at h
      exact Or.inl ⟨e, h⟩
  | read rid =>
    rcases get_item_cache_cases rid s with hcc | ⟨d0, hd0, hcc⟩
    · rw [show step s (.read rid) = (get_item rid s).2 from rfl, hcc] at h
      exact Or.inl ⟨e, h⟩
    · rw [show step s (.read rid) = (get_item rid s).2 from rfl, hcc] at h
      by_cases hav : cacheAvailable s.cache
      · rw [set_of_available hav] at h
        simp only [CacheService.lookup] at h
        by_cases hid : id = rid
        · subst hid
          rw [findEntry_set_self] at h
          simp [CACHE_TTL] at h
          right
          rw [← h.1]
          refine ⟨hids id d0 hd0, ?_⟩
          rw [show (step s (.read id)).items_db = s.items_db
            from get_item_db id s]
          exact hd0
        · rw [findEntry_set_ne _ _ _ _ _
            (fun hh => hid (getCacheKey_inj hh))] at h
          exact Or.inl ⟨e, h⟩
      · rw [set_of_failing (failing_of_not_available hav)] at h
        exact Or.inl ⟨e, h⟩
  | update uid u now =>
    rcases hd : dbGet s.items_db uid with _ | d0
    · rw [show step s (.update uid u now) = (update_item uid u now s).2
        from rfl, update_item_not_found hd] at h
      exact Or.inl ⟨e, h⟩
    · by_cases hav : cacheAvailable s.cache
      · rw [show step s (.update uid u now) = (update_item uid u now s).2
          from rfl, update_item_cache_of_available hav hd] at h
        simp only [CacheService.lookup] at h
        rw [findEntry_del_ne _ _ _ (getCacheKey_ne_listKey id)] at h
        by_cases hid : id = uid
        · subst hid
          rw [findEntry_set_self] at h
          simp [CACHE_TTL] at h
          right
          rw [← h.1]
          refine ⟨by rw [applyUpdate_eq]; exact hids id d0 hd, ?_⟩
          have hdb : (step s (.update id u now)).items_db =
              dbInsert s.items_db id (applyUpdate d0 u now) := by
            show (update_item id u now s).2.items_db = _
            simp [update_item, hd]
          rw [hdb]
          exact dbGet_insert_self s.items_db id _
        · rw [findEntry_set_ne _ _ _ _ _
            (fun hh => hid (getCacheKey_inj hh))] at h
          exact Or.inl ⟨e, h⟩
      · rw [show step s (.update uid u now) = (update_item uid u now s).2
          from rfl, update_item_cache_of_failing
            (failing_of_not_available hav) uid u now] at h
        exact Or.inl ⟨e, h⟩
  | del did =>
    by_cases hc : dbContains s.items_db did = true
    · by_cases hav : cacheAvailable s.cache
      · rw [show step s (.del did) = (delete_item did s).2 from rfl,
          delete_item_cache_of_available hav hc] at h
        simp only [CacheService.lookup] at h
        rw [findEntry_del_ne _ _ _ (getCacheKey_ne_listKey id)] at h
        by_cases hid : id = did
        · subst hid
          rw [findEntry_del_self] at h
          cases h
        · rw [findEntry_del_ne _ _ _
            (fun hh => hid (getCacheKey_inj hh))] at h
          exact Or.inl ⟨e, h⟩
      · rw [show step s (.del did) = (delete_item did s).2 from rfl,
          delete_item_cache_of_failing
            (failing_of_not_available hav) did] at h
        exact Or.inl ⟨e, h⟩
    · rw [show step s (.del did) = (delete_item did s).2 from rfl,
        delete_item_not_found hc] at h
      exact Or.inl ⟨e, h⟩
  | list page page_size => exact Or.inl ⟨e, h⟩
  | connect => exact Or.inl ⟨e, h⟩
  | disconnect => exact Or.inl ⟨e, h⟩
  | transport b => exact Or.inl ⟨e, h⟩
  | expire k =>
    simp only [step, CacheService.lookup] at h
    by_cases hk : getCacheKey id = k
    · rw [hk, findEntry_del_self] at h
      cases h
    · rw [findEntry_del_ne _ _ _ hk] at h
      exact Or.inl ⟨e, h⟩

/-- Trace-level cache coherence: after any run, an entity entry either was
present from the start with the same value, or its value was the Record
Store's value for that id at some prefix of the run. -/
theorem runOps_cache_entry (ops : List Op) :
    ∀ (s : Sys), DbIds s.items_db →
    ∀ {id : String} {d : ItemData} {e : Option Nat},
      (runOps s ops).cache.lookup (getCacheKey id) = some (.item d, e) →
      (∃ e', s.cache.lookup (getCacheKey id) = some (.item d, e')) ∨
      (d.id = id ∧
        ∃ n, dbGet (runOps s (ops.take n)).items_db id = some d) := by
  induction ops with
  | nil =>
    intro s hids id d e h
    exact Or.inl ⟨e, h⟩
  | cons op rest ih =>
    intro s hids id d e h
    rcases ih (step s op) (dbIds_step hids op) h with ⟨e', hold⟩ | ⟨hid, n, hn⟩
    · rcases step_cache_entry hids op hold with ⟨e'', horig⟩ | ⟨hid2, hdb⟩
      · exact Or.inl ⟨e'', horig⟩
      · exact Or.inr ⟨hid2, 1, by simpa [runOps] using hdb⟩
    · exact Or.inr ⟨hid, n + 1, by simpa [runOps] using hn⟩

/-! ## The claims -/

/-- **C1.** `Read(id)` first consults the cache under the id's entity key:
on a hit it returns the cached value immediately and leaves the whole state
untouched — the Record Store contents are quantified over with no link to
the cached value, so this holds even when the cached value differs from the
store's current value and even when the id is absent from the store; on a
miss it fails with NotFound when the id is absent from the Record Store,
and otherwise populates the cache at that key with the fixed TTL and
returns the store's value. -/
theorem read_cache_aside (c : CacheService) (item_id : String) :
    (∀ (db : Db) (v : ItemData),
        (c.get (getCacheKey item_id)).1 = some v →
        (get_item item_id ⟨db, c⟩).1 = .ok v ∧
        (get_item item_id ⟨db, c⟩).2 = ⟨db, c⟩) ∧
    (∀ db : Db,
        (c.get (getCacheKey item_id)).1 = none →
        dbGet db item_id = none →
        (get_item item_id ⟨db, c⟩).1 = .error .notFound ∧
        (get_item item_id ⟨db, c⟩).2 = ⟨db, c⟩) ∧
    (∀ (db : Db) (d : ItemData),
        (c.get (getCacheKey item_id)).1 = none →
        dbGet db item_id = some d →
        (get_item item_id ⟨db, c⟩).1 = .ok d ∧
        (get_item item_id ⟨db, c⟩).2.items_db = db ∧
        (get_item item_id ⟨db, c⟩).2.cache =
          (c.set (getCacheKey item_id) d (some CACHE_TTL)).2 ∧
        (cacheAvailable c →
          (get_item item_id ⟨db, c⟩).2.cache.lookup (getCacheKey item_id) =
            some (.item d, some CACHE_TTL))) := by
  refine ⟨?_, ?_, ?_⟩
  · intro db v hv
    have hpair : c.get (getCacheKey item_id) = (some v, c) :=
      Prod.ext hv (get_snd c _)
    simp [get_item, getFromCache, hpair]
  · intro db hv hd
    have hpair : c.get (getCacheKey item_id) = (none, c) :=
      Prod.ext hv (get_snd c _)
    simp [get_item, getFromCache, hpair, hd]
  · intro db d hv hd
    have hpair : c.get (getCacheKey item_id) = (none, c) :=
      Prod.ext hv (get_snd c _)
    refine ⟨?_, ?_, ?_, ?_⟩
    · simp [get_item, getFromCache, hpair, hd]
    · simp [get_item, getFromCache, hpair, hd]
    · simp [get_item, getFromCache, hpair, hd, setInCache]
    · intro hav
      simp only [get_item, getFromCache, hpair, hd, setInCache,
        set_of_available hav]
      simp [CacheService.lookup, findEntry_set_self, CACHE_TTL]

/-- Witness for C1: a poisoned cache short-circuits the store; an empty
available cache falls through to NotFound or to the stored value, which is
then cached with the TTL. -/
theorem read_cache_aside_witness :
    ((get_item "a" ⟨wDb1, wCacheHit⟩).1 = .ok wItemStale ∧
      (get_item "a" ⟨wDb1, wCacheHit⟩).2 = ⟨wDb1, wCacheHit⟩) ∧
    ((get_item "a" ⟨[], wCacheUp⟩).1 = .error .notFound ∧
      (get_item "a" ⟨[], wCacheUp⟩).2 = ⟨[], wCacheUp⟩) ∧
    ((get_item "a" ⟨wDb1, wCacheUp⟩).1 = .ok (wItem "a") ∧
      (get_item "a" ⟨wDb1, wCacheUp⟩).2.cache.lookup (getCacheKey "a") =
        some (.item (wItem "a"), some CACHE_TTL)) := by
  refine ⟨(read_cache_aside wCacheHit "a").1 wDb1 wItemStale (by decide),
    (read_cache_aside wCacheUp "a").2.1 [] (by decide) rfl, ?_⟩
  obtain ⟨h1, _, _, h4⟩ :=
    (read_cache_aside wCacheUp "a").2.2 wDb1 (wItem "a") (by decide)
      (by decide)
  exact ⟨h1, h4 (by decide)⟩

/-- **C3.** Every Cache Client operation is total and returns its designated
failure value under every failure of the underlying store: when the client
is unconnected or the transport fails (connection error / timeout), `get`
returns absent and `set`/`delete`/`exists`/`health_check` return `false`;
when the stored bytes fail to deserialize, `get` returns absent.  The
operations are plain Lean functions over these failure cases, so no
exception ever reaches the caller — the `RedisError`/`JSONDecodeError`/
`TypeError` raised by the underlying store are all caught inside. -/
theorem cache_client_totality (c : CacheService) (k : String) (v : ItemData)
    (ttl : Option Nat) :
    (cacheFailing c →
        (c.get k).1 = none ∧ (c.set k v ttl).1 = false ∧
        (c.delete k).1 = false ∧ (c.existsKey k).1 = false ∧
        c.health_check.1 = false) ∧
    (∀ e, c.lookup k = some (CacheVal.garbage, e) → (c.get k).1 = none) := by
  constructor
  · intro h
    rw [get_of_failing h, set_of_failing h, delete_of_failing h,
      existsKey_of_failing h, health_check_of_failing h]
    exact ⟨rfl, rfl, rfl, rfl, rfl⟩
  · intro e he
    by_cases h1 : c.connected = true
    · by_cases h2 : c.up = true
      · simp [get_of_available ⟨h1, h2⟩, he, decodeVal]
      · have hf : cacheFailing c := Or.inr (by simpa using h2)
        simp [get_of_failing hf]
    · have hf : cacheFailing c := Or.inl (by simpa using h1)
      simp [get_of_failing hf]

/-- Witness for C3: an unconnected client and an undecodable entry. -/
theorem cache_client_totality_witness :
    ((wCacheNoConn.get "k").1 = none ∧
      (wCacheNoConn.set "k" (wItem "a") (some 3600)).1 = false ∧
      (wCacheNoConn.delete "k").1 = false ∧
      (wCacheNoConn.existsKey "k").1 = false ∧
      wCacheNoConn.health_check.1 = false) ∧
    (wCacheGarbage.get "item:a").1 = none := by
  refine ⟨(cache_client_totality wCacheNoConn "k" (wItem "a")
      (some 3600)).1 (Or.inl rfl), ?_⟩
  exact (cache_client_totality wCacheGarbage "item:a" (wItem "a")
    (some 3600)).2 none (by decide)

/-- **C5.** `Update(id, partial)` on a stored entity applies exactly the
fields present in the partial update, leaves every unset field unchanged,
keeps `created_at`, refreshes `updated_at`, and stores the merged entity
back under the same id. -/
theorem update_is_merge (s : Sys) (item_id : String) (u : ItemUpdate)
    (now : Nat) (d : ItemData) (h : dbGet s.items_db item_id = some d) :
    ∃ r, (update_item item_id u now s).1 = .ok r ∧
      r.id = d.id ∧
      r.name = u.name.getD d.name ∧
      r.description = (match u.description with
        | some v => some v
        | none => d.description) ∧
      r.price = u.price.getD d.price ∧
      r.quantity = u.quantity.getD d.quantity ∧
      r.tags = u.tags.getD d.tags ∧
      r.created_at = d.created_at ∧
      r.updated_at = now ∧
      dbGet (update_item item_id u now s).2.items_db item_id = some r := by
  have he := applyUpdate_eq d u now
  refine ⟨applyUpdate d u now, by simp [update_item, h], by rw [he],
    by rw [he], by rw [he], by rw [he], by rw [he], by rw [he], by rw [he],
    by rw [he], ?_⟩
  simp [update_item, h, dbGet_insert_self]

/-- Witness for C5: `Update(id, {price: 5})` after
`Create({name: "A", price: 1, quantity: 2})` yields `name == "A"`,
`price == 5`, `quantity == 2`. -/
theorem update_is_merge_witness :
    ∃ r, (update_item "x" wUpdatePrice 1
        (create_item wCreateA "x" 0 ⟨[], wCacheUp⟩).2).1 = .ok r ∧
      r.name = "A" ∧ r.price = 5 ∧ r.quantity = 2 := by
  obtain ⟨r, h1, _, h3, _, h5, h6, _, _, _, _⟩ :=
    update_is_merge (create_item wCreateA "x" 0 ⟨[], wCacheUp⟩).2 "x"
      wUpdatePrice 1 (wItem "x") (by decide)
  refine ⟨r, h1, by rw [h3]; rfl, by rw [h5]; rfl, by rw [h6]; rfl⟩

/-- **C6.** `Delete(id)` fails with NotFound (and changes nothing) when the
id is absent from the Record Store; when present it removes the entity from
the store and — with no precondition on the cache, so even when the cache
deletions fail — succeeds, deleting the entity's cache entry and the list
key when the cache is reachable; a second delete of the same id yields
NotFound. -/
theorem delete_semantics (s : Sys) (item_id : String) :
    (dbGet s.items_db item_id = none →
        delete_item item_id s = (.error .notFound, s)) ∧
    (∀ d, dbGet s.items_db item_id = some d →
        (delete_item item_id s).1 = .ok () ∧
        (delete_item item_id s).2.items_db = dbRemove s.items_db item_id ∧
        dbGet (delete_item item_id s).2.items_db item_id = none ∧
        (delete_item item_id s).2.cache = deleteFromCache item_id s.cache ∧
        (cacheAvailable s.cache →
          (delete_item item_id s).2.cache.lookup (getCacheKey item_id) =
            none ∧
          (delete_item item_id s).2.cache.lookup ITEMS_LIST_KEY = none) ∧
        (delete_item item_id (delete_item item_id s).2).1 =
          .error .notFound) := by
  constructor
  · intro hd
    simp [delete_item, dbContains, hd]
  · intro d hd
    have hc : dbContains s.items_db item_id = true := by
      simp [dbContains, hd]
    refine ⟨by simp [delete_item, hc], by simp [delete_item, hc],
      by simp [delete_item, hc, dbGet_remove_self], by simp [delete_item, hc],
      ?_, ?_⟩
    · intro hav
      simp only [delete_item, hc, if_true, deleteFromCache,
        delete_of_available hav]
      have hav' : cacheAvailable
          { s.cache with
            entries := CacheService.entriesDel s.cache.entries
              (getCacheKey item_id) } := ⟨hav.1, hav.2⟩
      rw [delete_of_available hav']
      constructor
      · simp [CacheService.lookup,
          findEntry_del_ne _ ITEMS_LIST_KEY (getCacheKey item_id)
            (getCacheKey_ne_listKey item_id),
          findEntry_del_self]
      · simp [CacheService.lookup, findEntry_del_self]
    · simp [delete_item, dbContains, hd, dbGet_remove_self]

/-- Witness for C6: deleting a missing id 404s; deleting a present id
succeeds and a second delete of it 404s. -/
theorem delete_semantics_witness :
    delete_item "z" ⟨wDb1, wCacheUp⟩ = (.error .notFound, ⟨wDb1, wCacheUp⟩) ∧
    (delete_item "a" ⟨wDb1, wCacheUp⟩).1 = .ok () ∧
    (delete_item "a" (delete_item "a" ⟨wDb1, wCacheUp⟩).2).1 =
      .error .notFound := by
  refine ⟨(delete_semantics ⟨wDb1, wCacheUp⟩ "z").1 (by decide), ?_⟩
  obtain ⟨h1, _, _, _, _, h6⟩ :=
    (delete_semantics ⟨wDb1, wCacheUp⟩ "a").2 (wItem "a") (by decide)
  exact ⟨h1, h6⟩

/-- **C7.** For boundary-validated `page ≥ 1` and `1 ≤ page_size ≤ 100`,
`List` reads the full collection from the Record Store in insertion order
(`dbValues`) and returns `total` equal to the entity count, the slice
`[(page-1)*page_size, page*page_size)`, and
`total_pages = ceil(total / page_size)` with a minimum of 1 when the store
is empty (the bounds in the last conjunct pin `total_pages` down as the
exact ceiling); an out-of-range page yields an empty sequence. -/
theorem list_pagination_correct (s : Sys) (page page_size : Nat)
    (hp : 1 ≤ page) (hps : 1 ≤ page_size) (hps100 : page_size ≤ 100) :
    (list_items page page_size s).total = (dbValues s.items_db).length ∧
    (list_items page page_size s).page = page ∧
    (list_items page page_size s).page_size = page_size ∧
    (list_items page page_size s).items =
      ((dbValues s.items_db).drop ((page - 1) * page_size)).take page_size ∧
    (∀ i, i < page_size →
      (list_items page page_size s).items[i]? =
        (dbValues s.items_db)[(page - 1) * page_size + i]?) ∧
    (list_items page page_size s).total_pages =
      (if 0 < (dbValues s.items_db).length
        then (dbValues s.items_db).length ⌈/⌉ page_size else 1) ∧
    ((dbValues s.items_db).length ≤ (page - 1) * page_size →
      (list_items page page_size s).items = []) ∧
    (0 < (dbValues s.items_db).length →
      (dbValues s.items_db).length ≤
        (list_items page page_size s).total_pages * page_size ∧
      ((list_items page page_size s).total_pages - 1) * page_size <
        (dbValues s.items_db).length) := by
  refine ⟨rfl, rfl, rfl, rfl, ?_, rfl, ?_, ?_⟩
  · intro i hi
    show (((dbValues s.items_db).drop ((page - 1) * page_size)).take
      page_size)[i]? = _
    rw [List.getElem?_take_of_lt hi, List.getElem?_drop]
  · intro hle
    show ((dbValues s.items_db).drop ((page - 1) * page_size)).take
      page_size = []
    rw [List.drop_eq_nil_of_le hle, List.take_nil]
  · intro htot
    have hb := ceil_div_bounds (dbValues s.items_db).length page_size htot hps
    simpa [list_items, htot] using hb

/-- Witness for C7: five entities, `page=1, page_size=2` gives the first two
in creation order with `total = 5` and `total_pages = 3`; `page=10` gives an
empty sequence. -/
theorem list_pagination_correct_witness :
    (list_items 1 2 ⟨wDb5, wCacheUp⟩).items = [wItem "1", wItem "2"] ∧
    (list_items 1 2 ⟨wDb5, wCacheUp⟩).total = 5 ∧
    (list_items 1 2 ⟨wDb5, wCacheUp⟩).total_pages = 3 ∧
    (list_items 10 2 ⟨wDb5, wCacheUp⟩).items = [] := by
  have h1 := list_pagination_correct ⟨wDb5, wCacheUp⟩ 1 2 (by decide)
    (by decide) (by decide)
  have h2 := list_pagination_correct ⟨wDb5, wCacheUp⟩ 10 2 (by decide)
    (by decide) (by decide)
  refine ⟨?_, ?_, ?_, h2.2.2.2.2.2.2.1 (by decide)⟩
  · rw [h1.2.2.2.1]
    decide
  · rw [h1.1]
    decide
  · rw [h1.2.2.2.2.2.1]
    decide

/-- **C8.** `Create(F)` builds the entity from F with the generated id (the
`uuid4` oracle) and `created_at = updated_at = now`, inserts it into the
Record Store, then caches it under its entity key with the fixed TTL, then
invalidates the list key (the cache effects shown under availability); and
`Create(F)` followed immediately by `Read(id)` returns that very entity for
every initial cache state — available, down, unconnected, or poisoned. -/
theorem create_read_roundtrip (s : Sys) (f : ItemCreate) (item_id : String)
    (now : Nat) :
    (create_item f item_id now s).1 =
      { id := item_id, name := f.name, description := f.description,
        price := f.price, quantity := f.quantity, tags := f.tags,
        created_at := now, updated_at := now } ∧
    (create_item f item_id now s).2.items_db =
      dbInsert s.items_db item_id (create_item f item_id now s).1 ∧
    dbGet (create_item f item_id now s).2.items_db item_id =
      some (create_item f item_id now s).1 ∧
    (cacheAvailable s.cache →
      (create_item f item_id now s).2.cache.lookup (getCacheKey item_id) =
        some (.item (create_item f item_id now s).1, some CACHE_TTL) ∧
      (create_item f item_id now s).2.cache.lookup ITEMS_LIST_KEY = none) ∧
    (get_item item_id (create_item f item_id now s).2).1 =
      .ok (create_item f item_id now s).1 := by
  refine ⟨rfl, rfl, ?_, ?_, ?_⟩
  · exact dbGet_insert_self s.items_db item_id _
  · intro hav
    exact ⟨create_item_lookup_self hav f item_id now,
      create_item_lookup_list hav f item_id now⟩
  · by_cases hav : cacheAvailable s.cache
    · have hl := create_item_lookup_self hav f item_id now
      have hflags := create_item_cache_flags s f item_id now
      have hav2 : cacheAvailable (create_item f item_id now s).2.cache :=
        ⟨hflags.1.trans hav.1, hflags.2.trans hav.2⟩
      simp [get_item, getFromCache, get_of_available hav2, hl, decodeVal]
    · have hf := failing_of_not_available hav
      have hf2 : cacheFailing (create_item f item_id now s).2.cache := by
        rw [create_item_cache_of_failing hf]
        exact hf
      rw [get_item_of_failing hf2]
      simp [specRead, create_item, dbGet_insert_self]

/-- Witness for C8: a concrete create + read, both with the transport down
and with the cache reachable (where the entity is also found cached under
its key with the TTL). -/
theorem create_read_roundtrip_witness :
    (create_item wCreateA "x" 7 ⟨[], wCacheDown⟩).1 =
      { id := "x", name := "A", description := none, price := 1,
        quantity := 2, tags := [], created_at := 7, updated_at := 7 } ∧
    (get_item "x" (create_item wCreateA "x" 7 ⟨[], wCacheDown⟩).2).1 =
      .ok (create_item wCreateA "x" 7 ⟨[], wCacheDown⟩).1 ∧
    (get_item "x" (create_item wCreateA "x" 7 ⟨[], wCacheUp⟩).2).1 =
      .ok (create_item wCreateA "x" 7 ⟨[], wCacheUp⟩).1 ∧
    (create_item wCreateA "x" 7 ⟨[], wCacheUp⟩).2.cache.lookup
        (getCacheKey "x") =
      some (.item (create_item wCreateA "x" 7 ⟨[], wCacheUp⟩).1,
        some CACHE_TTL) := by
  obtain ⟨a1, _, _, _, a5⟩ :=
    create_read_roundtrip ⟨[], wCacheDown⟩ wCreateA "x" 7
  obtain ⟨_, _, _, b4, b5⟩ :=
    create_read_roundtrip ⟨[], wCacheUp⟩ wCreateA "x" 7
  exact ⟨a1, a5, b5, (b4 (by decide)).1⟩

/-- **C9 (counterexample).** The claim's key shapes are wrong for this code:
at id `"42"` the entity cache key is `item:42`, not `entity:42`, and the
list invalidation key is the literal `items:list`, not `entities:list`. -/
theorem cache_key_names_counterexample :
    getCacheKey "42" = "item:42" ∧ getCacheKey "42" ≠ "entity:42" ∧
    ITEMS_LIST_KEY = "items:list" ∧ ITEMS_LIST_KEY ≠ "entities:list" := by
  refine ⟨rfl, ?_, rfl, ?_⟩ <;> decide

/-- **C9 (amended).** For every entity id, the cache entry for that entity
is stored under the key `item:<id>` and the list invalidation key is the
fixed literal `items:list`: the coordinator's cache write for id lands
under `"item:" ++ id` (with the fixed TTL) and its list invalidation
erases `"items:list"`. -/
theorem cache_key_names_amended (id : String) (d : ItemData)
    (c : CacheService) (hav : cacheAvailable c) :
    getCacheKey id = "item:" ++ id ∧
    ITEMS_LIST_KEY = "items:list" ∧
    (setInCache id d c).lookup ("item:" ++ id) =
      some (.item d, some CACHE_TTL) ∧
    (deleteFromCache id c).lookup "items:list" = none := by
  refine ⟨rfl, rfl, ?_, ?_⟩
  · rw [setInCache, set_of_available hav]
    show findEntry (CacheService.entriesSet c.entries (getCacheKey id)
      (.item d) (some CACHE_TTL)) ("item:" ++ id) = _
    rw [show ("item:" ++ id) = getCacheKey id from rfl, findEntry_set_self]
    simp [CACHE_TTL]
  · rw [deleteFromCache, delete_of_available hav,
      delete_of_available (cacheAvailable_entries _ _ hav)]
    show findEntry (CacheService.entriesDel
      (CacheService.entriesDel c.entries (getCacheKey id)) ITEMS_LIST_KEY)
      "items:list" = none
    rw [show "items:list" = ITEMS_LIST_KEY from rfl, findEntry_del_self]

/-- Witness for C9's amended claim, at id `"a"` on a reachable cache. -/
theorem cache_key_names_amended_witness :
    getCacheKey "a" = "item:" ++ "a" ∧
    ITEMS_LIST_KEY = "items:list" ∧
    (setInCache "a" (wItem "a") wCacheUp).lookup ("item:" ++ "a") =
      some (.item (wItem "a"), some CACHE_TTL) ∧
    (deleteFromCache "a" wCacheUp).lookup "items:list" = none :=
  cache_key_names_amended "a" (wItem "a") wCacheUp (by decide)

/-- **C2.** When every Cache Client operation fails (`get` returns absent,
`set`/`delete` return `false` — whether unconnected or with the transport
down), `Create`, `Read`, `Update`, `Delete` and `List` all still succeed
and return exactly the results determined by the Record Store alone (the
store-only `spec*` functions), and the cache state is left untouched:
unavailability changes no outcome. -/
theorem cache_failure_tolerance (c : CacheService) (k : String)
    (v : ItemData) (ttl : Option Nat) (h : cacheFailing c) :
    (c.get k).1 = none ∧ (c.set k v ttl).1 = false ∧
    (c.delete k).1 = false ∧
    (∀ (db : Db) (i : ItemCreate) (item_id : String) (now : Nat),
      (create_item i item_id now ⟨db, c⟩).1 = (specCreate db i item_id now).1 ∧
      (create_item i item_id now ⟨db, c⟩).2 =
        ⟨(specCreate db i item_id now).2, c⟩) ∧
    (∀ (db : Db) (item_id : String),
      get_item item_id ⟨db, c⟩ = (specRead db item_id, ⟨db, c⟩)) ∧
    (∀ (db : Db) (item_id : String) (u : ItemUpdate) (now : Nat),
      (update_item item_id u now ⟨db, c⟩).1 =
        (specUpdate db item_id u now).1 ∧
      (update_item item_id u now ⟨db, c⟩).2 =
        ⟨(specUpdate db item_id u now).2, c⟩) ∧
    (∀ (db : Db) (item_id : String),
      (delete_item item_id ⟨db, c⟩).1 = (specDelete db item_id).1 ∧
      (delete_item item_id ⟨db, c⟩).2 = ⟨(specDelete db item_id).2, c⟩) ∧
    (∀ (db : Db) (page page_size : Nat),
      list_items page page_size ⟨db, c⟩ = specList db page page_size) := by
  refine ⟨?_, ?_, ?_, failing_refinement h⟩
  · rw [get_of_failing h]
  · rw [set_of_failing h]
  · rw [delete_of_failing h]

/-- Witness for C2: a connected client whose transport is down. -/
theorem cache_failure_tolerance_witness :
    (wCacheDown.get "k").1 = none ∧
    (create_item wCreateA "x" 0 ⟨[], wCacheDown⟩).1 =
      (specCreate [] wCreateA "x" 0).1 ∧
    get_item "a" ⟨wDb1, wCacheDown⟩ =
      (specRead wDb1 "a", ⟨wDb1, wCacheDown⟩) ∧
    (update_item "a" wUpdatePrice 1 ⟨wDb1, wCacheDown⟩).1 =
      (specUpdate wDb1 "a" wUpdatePrice 1).1 ∧
    (delete_item "a" ⟨wDb1, wCacheDown⟩).1 = (specDelete wDb1 "a").1 ∧
    list_items 1 2 ⟨wDb5, wCacheDown⟩ = specList wDb5 1 2 := by
  obtain ⟨hg, _, _, hcr, hrd, hup, hdel, hl⟩ :=
    cache_failure_tolerance wCacheDown "k" (wItem "a") (some 3600)
      (Or.inr rfl)
  exact ⟨hg, (hcr [] wCreateA "x" 0).1, hrd wDb1 "a",
    (hup wDb1 "a" wUpdatePrice 1).1, (hdel wDb1 "a").1, hl wDb5 1 2⟩

/-- **C10.** Before `connect()` (or after `disconnect()`), every
`CacheService` operation on the unconnected service returns its failure
value without raising — `get` absent, `set`/`delete`/`exists`/
`health_check` false — and changes nothing; hence an uninitialized cache
behaves exactly like an always-failing one and every Coordinator operation
still computes the store-only result. -/
theorem unconnected_cache_degrades_gracefully (c : CacheService)
    (k : String) (v : ItemData) (ttl : Option Nat)
    (h : c.connected = false) :
    c.get k = (none, c) ∧ c.set k v ttl = (false, c) ∧
    c.delete k = (false, c) ∧ c.existsKey k = (false, c) ∧
    c.health_check = (false, c) ∧
    (∀ (db : Db) (i : ItemCreate) (item_id : String) (now : Nat),
      (create_item i item_id now ⟨db, c⟩).1 = (specCreate db i item_id now).1 ∧
      (create_item i item_id now ⟨db, c⟩).2 =
        ⟨(specCreate db i item_id now).2, c⟩) ∧
    (∀ (db : Db) (item_id : String),
      get_item item_id ⟨db, c⟩ = (specRead db item_id, ⟨db, c⟩)) ∧
    (∀ (db : Db) (item_id : String) (u : ItemUpdate) (now : Nat),
      (update_item item_id u now ⟨db, c⟩).1 =
        (specUpdate db item_id u now).1 ∧
      (update_item item_id u now ⟨db, c⟩).2 =
        ⟨(specUpdate db item_id u now).2, c⟩) ∧
    (∀ (db : Db) (item_id : String),
      (delete_item item_id ⟨db, c⟩).1 = (specDelete db item_id).1 ∧
      (delete_item item_id ⟨db, c⟩).2 = ⟨(specDelete db item_id).2, c⟩) ∧
    (∀ (db : Db) (page page_size : Nat),
      list_items page page_size ⟨db, c⟩ = specList db page page_size) := by
  have hf : cacheFailing c := Or.inl h
  exact ⟨get_of_failing hf k, set_of_failing hf k v ttl,
    delete_of_failing hf k, existsKey_of_failing hf k,
    health_check_of_failing hf, failing_refinement hf⟩

/-- Witness for C10: the never-connected singleton. -/
theorem unconnected_cache_degrades_gracefully_witness :
    wCacheNoConn.get "k" = (none, wCacheNoConn) ∧
    wCacheNoConn.health_check = (false, wCacheNoConn) ∧
    get_item "a" ⟨wDb1, wCacheNoConn⟩ =
      (specRead wDb1 "a", ⟨wDb1, wCacheNoConn⟩) ∧
    (delete_item "a" ⟨wDb1, wCacheNoConn⟩).1 = (specDelete wDb1 "a").1 := by
  obtain ⟨hg, _, _, _, hh, _, hrd, _, hdel, _⟩ :=
    unconnected_cache_degrades_gracefully wCacheNoConn "k" (wItem "a")
      (some 3600) rfl
  exact ⟨hg, hh, hrd wDb1 "a", (hdel wDb1 "a").1⟩

/-- **C4.** In every mutating operation the authoritative Record Store
write precedes the cache write/invalidation; semantically: (1) in every
state reachable by any trace of requests and environment events from a
fresh process, every cached entity entry `item:<id> ↦ d` satisfies
`d.id = id` and `d` was the Record Store's value for `id` at some prefix of
the trace — i.e. the cache never holds an entity value the store does not
also hold or has not already superseded, staleness windows (failed or
not-yet-happened invalidations) being exactly the "superseded" case; and
(2) the list key is invalidated after every entity-level mutation that
reaches the store (shown for a reachable cache; a failed invalidation is
absorbed, which part (1) tolerates). -/
theorem cache_store_coherence :
    (∀ (conn up : Bool) (ops : List Op) (id : String) (d : ItemData)
        (e : Option Nat),
      (runOps (initSys conn up) ops).cache.lookup (getCacheKey id) =
        some (.item d, e) →
      d.id = id ∧
      ∃ n, dbGet (runOps (initSys conn up) (ops.take n)).items_db id =
        some d) ∧
    (∀ (s : Sys) (f : ItemCreate) (item_id : String) (now : Nat)
        (u : ItemUpdate),
      cacheAvailable s.cache →
      (step s (.create f item_id now)).cache.lookup ITEMS_LIST_KEY = none ∧
      (dbContains s.items_db item_id = true →
        (step s (.update item_id u now)).cache.lookup ITEMS_LIST_KEY =
          none) ∧
      (dbContains s.items_db item_id = true →
        (step s (.del item_id)).cache.lookup ITEMS_LIST_KEY = none)) := by
  constructor
  · intro conn up ops id d e h
    have hids : DbIds (initSys conn up).items_db := dbIds_nil
    rcases runOps_cache_entry ops (initSys conn up) hids h with
      ⟨e', h0⟩ | hr
    · exact absurd h0 (by simp [initSys, CacheService.lookup, findEntry])
    · exact hr
  · intro s f item_id now u hav
    refine ⟨?_, ?_, ?_⟩
    · exact create_item_lookup_list hav f item_id now
    · intro hc
      obtain ⟨d0, hd0⟩ := Option.isSome_iff_exists.mp hc
      rw [show step s (.update item_id u now) = (update_item item_id u now s).2
        from rfl, update_item_cache_of_available hav hd0]
      simp [CacheService.lookup, findEntry_del_self]
    · intro hc
      rw [show step s (.del item_id) = (delete_item item_id s).2 from rfl,
        delete_item_cache_of_available hav hc]
      simp [CacheService.lookup, findEntry_del_self]

/-- Witness for C4: after one create on a fresh connected process the
cached entity carries its own id and is the store's value at the full
prefix; and a delete on a reachable cache leaves the list key absent. -/
theorem cache_store_coherence_witness :
    ((wItem "a").id = "a" ∧
      ∃ n, dbGet (runOps (initSys true true)
          ([Op.create wCreateA "a" 0].take n)).items_db "a" =
        some (wItem "a")) ∧
    (step ⟨wDb1, wCacheUp⟩ (.del "a")).cache.lookup ITEMS_LIST_KEY =
      none := by
  refine ⟨cache_store_coherence.1 true true [Op.create wCreateA "a" 0] "a"
    (wItem "a") (some CACHE_TTL) (by decide), ?_⟩
  exact (cache_store_coherence.2 ⟨wDb1, wCacheUp⟩ wCreateA "a" 0
    wUpdatePrice (by decide)).2.2 (by decide)

end ItemsApi
